import Mathlib

/-!
Shallow embedding of the git pre-commit hook `hooks/pre_commit.py`.

External processes are modelled by an environment mapping the full command
line to the process result (return code and captured standard output).
Execution produces a trace of observable events (lines printed to standard
output and commands executed) together with an outcome: normal return, or a
`procFailure` modelling the `CalledProcessError` raised by
`subprocess.run(..., check=True)` on a non-zero exit code, which the script
never catches.
-/

namespace PreCommit

/-- Result of one external process: its exit code and captured stdout. -/
structure ProcResult where
  returncode : Nat
  stdout : String
deriving DecidableEq, Repr

/-- Environment: what each external command returns when executed. -/
abbrev Env := List String → ProcResult

/-- An observable event: a line printed to stdout, or an executed command. -/
inductive Event where
  | print (line : String)
  | exec (cmd : List String)
deriving DecidableEq, Repr

/-- Outcome of a Python call: normal return, or an uncaught
`CalledProcessError` carrying the failing command and its exit code. -/
inductive PyResult (α : Type) where
  | ok (val : α)
  | procFailure (cmd : List String) (returncode : Nat)
deriving DecidableEq, Repr

/-- Python `s.split("\n")`: split on every newline, keeping empty pieces;
the result is never the empty list. -/
def splitLines (s : String) : List String :=
  s.toList.foldr
    (fun c acc =>
      match acc with
      | [] => [""]
      | a :: as => if c = '\n' then "" :: a :: as else (String.mk [c] ++ a) :: as)
    [""]

/-- Python `" ".join(cmd)`. -/
def joinSpace : List String → String
  | [] => ""
  | [x] => x
  | x :: y :: ys => x ++ " " ++ joinSpace (y :: ys)

/-- The command built by `_git_diff`:
`git diff [--cached] --name-only --diff-filter=ACMR *.<extension>`. -/
def gitDiffCmd (staged_or_modified : Bool) (extension : String) : List String :=
  ["git", "diff"] ++ (if staged_or_modified then ["--cached"] else []) ++
    ["--name-only", "--diff-filter=ACMR", "*." ++ extension]

/-- `_git_diff(staged_or_modified, extension)`: runs the diff query with
`check=True` and returns the non-empty lines of its stdout. -/
def _git_diff (env : Env) (staged_or_modified : Bool) (extension : String) :
    List Event × PyResult (List String) :=
  let c := gitDiffCmd staged_or_modified extension
  let r := env c
  if r.returncode = 0 then
    ([Event.exec c], PyResult.ok ((splitLines r.stdout).filter (fun x => decide (x ≠ ""))))
  else
    ([Event.exec c], PyResult.procFailure c r.returncode)

/-- The unfiltered working-tree-vs-index query `git diff --name-only`
issued by `_call_tool` in staged mode. -/
def gitDiffNameOnly : List String := ["git", "diff", "--name-only"]

/-- The warning printed when staged files with unstaged modifications are
excluded (the concatenated string literal of the source). -/
def warnMessage : String :=
  "Some files are not considered because they have unstaged modifications.\nModifying them and readding them would stage unwanted modifications\nConcerned files:"

/-- `trimmed_files = [x for x in files if x not in modified_lines]`. -/
def trimmedFiles (files modified : List String) : List String :=
  files.filter (fun x => !(decide (x ∈ modified)))

/-- `excluded = [x for x in files if x not in trimmed_files]`. -/
def excludedFiles (files trimmed : List String) : List String :=
  files.filter (fun x => !(decide (x ∈ trimmed)))

/-- One tool invocation: the command line is printed, then executed. -/
def toolBlock (cmd : List String) (file : String) : List Event :=
  [Event.print (joinSpace (cmd ++ [file])), Event.exec (cmd ++ [file])]

/-- One re-add: `git add <file>` is printed, then executed. -/
def addBlock (file : String) : List Event :=
  [Event.print (joinSpace ["git", "add", file]), Event.exec ["git", "add", file]]

/-- The events produced for one fully processed file: the tool invocation
followed, in staged mode, by the re-add. -/
def fileBlock (staged_or_modified : Bool) (cmd : List String) (file : String) :
    List Event :=
  toolBlock cmd file ++ (if staged_or_modified then addBlock file else [])

/-- The per-file loop of `_call_tool` (source lines 77-94): for each file,
print and run the tool (`check=True`); in staged mode, then print and run
`git add` on that file (`check=True`); return 0 on normal exit. -/
def toolLoop (env : Env) (staged_or_modified : Bool) (cmd : List String) :
    List String → List Event × PyResult Nat
  | [] => ([], PyResult.ok 0)
  | file :: rest =>
    let toolCmd := cmd ++ [file]
    let r := env toolCmd
    if r.returncode = 0 then
      if staged_or_modified then
        let addCmd := ["git", "add", file]
        let ra := env addCmd
        if ra.returncode = 0 then
          let next := toolLoop env staged_or_modified cmd rest
          (toolBlock cmd file ++ addBlock file ++ next.1, next.2)
        else
          (toolBlock cmd file ++ addBlock file, PyResult.procFailure addCmd ra.returncode)
      else
        let next := toolLoop env staged_or_modified cmd rest
        (toolBlock cmd file ++ next.1, next.2)
    else
      (toolBlock cmd file, PyResult.procFailure toolCmd r.returncode)

/-- `_call_tool(files, staged_or_modified, cmd)`: in staged mode, first
query `git diff --name-only` (not echoed), drop the staged files that
appear in its output, warn about the dropped ones, then run the loop on
what remains; in unstaged mode, run the loop on `files` directly. -/
def _call_tool (env : Env) (files : List String) (staged_or_modified : Bool)
    (cmd : List String) : List Event × PyResult Nat :=
  if staged_or_modified then
    let r := env gitDiffNameOnly
    if r.returncode = 0 then
      let modified := splitLines r.stdout
      let trimmed := trimmedFiles files modified
      let excluded := excludedFiles files trimmed
      let warnEvents :=
        if excluded.isEmpty then []
        else Event.print warnMessage :: excluded.map (fun e => Event.print ("  " ++ e))
      let next := toolLoop env true cmd trimmed
      (Event.exec gitDiffNameOnly :: (warnEvents ++ next.1), next.2)
    else
      ([Event.exec gitDiffNameOnly], PyResult.procFailure gitDiffNameOnly r.returncode)
  else
    toolLoop env false cmd files

/-- The informational message printed when no relevant file is found. -/
def noFileMessage (adjective : String) : String :=
  "No " ++ adjective ++ " *.ml relevant file found: nothing to format"

/-- `main()`: staged mode unless `--unstaged` is in `sys.argv`; list the
relevant `*.ml` files; if none, print the informational message and return
0; otherwise run the tool and return `max(0, rc)`. -/
def main (env : Env) (argv : List String) : List Event × PyResult Nat :=
  let staged := !(argv.contains "--unstaged")
  let adjective := if staged then "staged" else "modified"
  let d := _git_diff env staged "ml"
  match d.2 with
  | PyResult.procFailure c rc => (d.1, PyResult.procFailure c rc)
  | PyResult.ok relevant_ml_files =>
    if relevant_ml_files.isEmpty then
      (d.1 ++ [Event.print (noFileMessage adjective)], PyResult.ok 0)
    else
      let t := _call_tool env relevant_ml_files staged ["ocamlformat", "--inplace"]
      match t.2 with
      | PyResult.ok rc => (d.1 ++ t.1, PyResult.ok (Nat.max 0 rc))
      | PyResult.procFailure c rc => (d.1 ++ t.1, PyResult.procFailure c rc)

/-- The process exit code of `sys.exit(main())`: the returned value on
normal return; 1 when the uncaught `CalledProcessError` aborts the
interpreter (CPython exits with status 1 on an uncaught exception,
whatever the subprocess's own exit code was). -/
def processExitCode (env : Env) (argv : List String) : Nat :=
  match (main env argv).2 with
  | PyResult.ok rc => rc
  | PyResult.procFailure _ _ => 1

/-- Concrete environment: every command succeeds with empty output. -/
def envOk : Env := fun _ => ⟨0, ""⟩

/-- Concrete environment: every command fails with exit code 2. -/
def envFail2 : Env := fun _ => ⟨2, ""⟩

/-- Concrete environment: the unstaged-diff query reports `b.ml`
modified; everything else succeeds silently. -/
def envC1 : Env := fun c =>
  if c = gitDiffNameOnly then ⟨0, "b.ml"⟩ else ⟨0, ""⟩

/-- Concrete environment: the tool fails (exit 1) on `a.ml`; everything
else succeeds silently. -/
def envFailTool : Env := fun c =>
  if c = ["tool", "a.ml"] then ⟨1, ""⟩ else ⟨0, ""⟩

/-- Concrete environment: the staged diff reports `a.ml`; everything else
succeeds silently. -/
def envC9 : Env := fun c =>
  if c = gitDiffCmd true "ml" then ⟨0, "a.ml"⟩ else ⟨0, ""⟩

/-- A trace in which every executed command is immediately preceded by the
print of its full command line. -/
inductive PairedEcho : List Event → Prop
  | nil : PairedEcho []
  | cons (c : List String) (rest : List Event) (h : PairedEcho rest) :
      PairedEcho (Event.print (joinSpace c) :: Event.exec c :: rest)

lemma toolLoop_cons_ok (env : Env) (staged : Bool) (cmd : List String)
    (file : String) (rest : List String)
    (h1 : (env (cmd ++ [file])).returncode = 0)
    (h2 : staged = true → (env ["git", "add", file]).returncode = 0) :
    toolLoop env staged cmd (file :: rest)
      = (fileBlock staged cmd file ++ (toolLoop env staged cmd rest).1,
         (toolLoop env staged cmd rest).2) := by
  by_cases hs : staged = true
  · simp [toolLoop, h1, h2 hs, hs, fileBlock]
  · simp [toolLoop, h1, hs, fileBlock]

lemma toolLoop_front (env : Env) (staged : Bool) (cmd : List String)
    (pre tail : List String)
    (hpre : ∀ g ∈ pre, (env (cmd ++ [g])).returncode = 0 ∧
      (staged = true → (env ["git", "add", g]).returncode = 0)) :
    toolLoop env staged cmd (pre ++ tail)
      = ((pre.map (fileBlock staged cmd)).flatten ++ (toolLoop env staged cmd tail).1,
         (toolLoop env staged cmd tail).2) := by
  induction pre with
  | nil => simp
  | cons g pre ih =>
    have hg := hpre g (List.mem_cons_self g pre)
    rw [List.cons_append, toolLoop_cons_ok env staged cmd g (pre ++ tail) hg.1 hg.2,
      ih (fun x hx => hpre x (List.mem_cons_of_mem g hx))]
    simp [List.append_assoc]

lemma toolLoop_fail_head (env : Env) (staged : Bool) (cmd : List String)
    (file : String) (post : List String)
    (hf : (env (cmd ++ [file])).returncode ≠ 0) :
    toolLoop env staged cmd (file :: post)
      = (toolBlock cmd file,
         PyResult.procFailure (cmd ++ [file]) (env (cmd ++ [file])).returncode) := by
  simp [toolLoop, hf]

lemma toolLoop_ok_all (env : Env) (staged : Bool) (cmd : List String) :
    ∀ fs rc, (toolLoop env staged cmd fs).2 = PyResult.ok rc →
      rc = 0 ∧ ∀ f ∈ fs, (env (cmd ++ [f])).returncode = 0 := by
  intro fs
  induction fs with
  | nil =>
    intro rc h
    simp only [toolLoop] at h
    injection h with h'
    exact ⟨h'.symm, fun f hf => absurd hf (List.not_mem_nil f)⟩
  | cons file rest ih =>
    intro rc h
    by_cases h1 : (env (cmd ++ [file])).returncode = 0
    · by_cases hs : staged = true
      · by_cases h2 : (env ["git", "add", file]).returncode = 0
        · rw [toolLoop_cons_ok env staged cmd file rest h1 (fun _ => h2)] at h
          rcases ih rc h with ⟨hrc, hall⟩
          refine ⟨hrc, fun f hf => ?_⟩
          rcases List.mem_cons.mp hf with hfe | hfr
          · rw [hfe]; exact h1
          · exact hall f hfr
        · simp only [toolLoop, h1, hs, if_pos, if_true, if_neg h2, ite_true] at h
          simp at h
      · rw [toolLoop_cons_ok env staged cmd file rest h1 (fun hc => absurd hc hs)] at h
        rcases ih rc h with ⟨hrc, hall⟩
        refine ⟨hrc, fun f hf => ?_⟩
        rcases List.mem_cons.mp hf with hfe | hfr
        · rw [hfe]; exact h1
        · exact hall f hfr
    · rw [toolLoop_fail_head env staged cmd file rest h1] at h
      simp at h

lemma toolLoop_fail_rc (env : Env) (staged : Bool) (cmd : List String) :
    ∀ fs c rc, (toolLoop env staged cmd fs).2 = PyResult.procFailure c rc →
      rc ≠ 0 := by
  intro fs
  induction fs with
  | nil =>
    intro c rc h
    simp only [toolLoop] at h
    exact absurd h (by simp)
  | cons file rest ih =>
    intro c rc h
    by_cases h1 : (env (cmd ++ [file])).returncode = 0
    · by_cases hs : staged = true
      · by_cases h2 : (env ["git", "add", file]).returncode = 0
        · rw [toolLoop_cons_ok env staged cmd file rest h1 (fun _ => h2)] at h
          exact ih c rc h
        · simp [toolLoop, h1, hs, h2] at h
          rw [← h.2]; exact h2
      · rw [toolLoop_cons_ok env staged cmd file rest h1 (fun hc => absurd hc hs)] at h
        exact ih c rc h
    · rw [toolLoop_fail_head env staged cmd file rest h1] at h
      injection h with hc hrc
      rw [← hrc]; exact h1

lemma toolLoop_add_fail (env : Env) (cmd : List String) (file : String)
    (rest : List String)
    (h1 : (env (cmd ++ [file])).returncode = 0)
    (h2 : (env ["git", "add", file]).returncode ≠ 0) :
    toolLoop env true cmd (file :: rest)
      = (toolBlock cmd file ++ addBlock file,
         PyResult.procFailure ["git", "add", file]
           (env ["git", "add", file]).returncode) := by
  simp [toolLoop, h1, h2]

lemma git_diff_ok_eq (env : Env) (s : Bool) (ext : String)
    (hok : (env (gitDiffCmd s ext)).returncode = 0) :
    _git_diff env s ext
      = ([Event.exec (gitDiffCmd s ext)],
         PyResult.ok ((splitLines (env (gitDiffCmd s ext)).stdout).filter
           (fun x => decide (x ≠ "")))) := by
  simp [_git_diff, hok]

lemma git_diff_fail_eq (env : Env) (s : Bool) (ext : String)
    (hne : (env (gitDiffCmd s ext)).returncode ≠ 0) :
    _git_diff env s ext
      = ([Event.exec (gitDiffCmd s ext)],
         PyResult.procFailure (gitDiffCmd s ext)
           (env (gitDiffCmd s ext)).returncode) := by
  simp [_git_diff, hne]

lemma call_tool_staged_eq (env : Env) (files cmd : List String)
    (hok : (env gitDiffNameOnly).returncode = 0) :
    _call_tool env files true cmd
      = (Event.exec gitDiffNameOnly ::
          ((if (excludedFiles files
                (trimmedFiles files (splitLines (env gitDiffNameOnly).stdout))).isEmpty
            then []
            else Event.print warnMessage ::
              (excludedFiles files
                (trimmedFiles files (splitLines (env gitDiffNameOnly).stdout))).map
                (fun e => Event.print ("  " ++ e)))
            ++ (toolLoop env true cmd
                (trimmedFiles files (splitLines (env gitDiffNameOnly).stdout))).1),
         (toolLoop env true cmd
           (trimmedFiles files (splitLines (env gitDiffNameOnly).stdout))).2) := by
  simp [_call_tool, hok]

lemma call_tool_staged_fail_eq (env : Env) (files cmd : List String)
    (hne : (env gitDiffNameOnly).returncode ≠ 0) :
    _call_tool env files true cmd
      = ([Event.exec gitDiffNameOnly],
         PyResult.procFailure gitDiffNameOnly (env gitDiffNameOnly).returncode) := by
  simp [_call_tool, hne]

lemma call_tool_unstaged_eq (env : Env) (files cmd : List String) :
    _call_tool env files false cmd = toolLoop env false cmd files := by
  simp [_call_tool]

lemma call_tool_ok_all (env : Env) (files : List String) (staged : Bool)
    (cmd : List String) (rc : Nat)
    (h : (_call_tool env files staged cmd).2 = PyResult.ok rc) : rc = 0 := by
  by_cases hs : staged = true
  · subst hs
    by_cases hok : (env gitDiffNameOnly).returncode = 0
    · rw [call_tool_staged_eq env files cmd hok] at h
      exact (toolLoop_ok_all env true cmd _ rc h).1
    · rw [call_tool_staged_fail_eq env files cmd hok] at h
      simp at h
  · have hs' : staged = false := Bool.eq_false_iff.mpr hs
    subst hs'
    rw [call_tool_unstaged_eq env files cmd] at h
    exact (toolLoop_ok_all env false cmd files rc h).1

lemma call_tool_fail_rc (env : Env) (files : List String) (staged : Bool)
    (cmd c : List String) (rc : Nat)
    (h : (_call_tool env files staged cmd).2 = PyResult.procFailure c rc) :
    rc ≠ 0 := by
  by_cases hs : staged = true
  · subst hs
    by_cases hok : (env gitDiffNameOnly).returncode = 0
    · rw [call_tool_staged_eq env files cmd hok] at h
      exact toolLoop_fail_rc env true cmd _ c rc h
    · rw [call_tool_staged_fail_eq env files cmd hok] at h
      injection h with hc hrc
      rw [← hrc]; exact hok
  · have hs' : staged = false := Bool.eq_false_iff.mpr hs
    subst hs'
    rw [call_tool_unstaged_eq env files cmd] at h
    exact toolLoop_fail_rc env false cmd files c rc h

lemma exit_of_failure (env : Env) (argv c : List String) (rc : Nat)
    (h : (main env argv).2 = PyResult.procFailure c rc) :
    processExitCode env argv = 1 := by
  unfold processExitCode
  rw [h]

lemma exit_of_ok (env : Env) (argv : List String) (rc : Nat)
    (h : (main env argv).2 = PyResult.ok rc) :
    processExitCode env argv = rc := by
  unfold processExitCode
  rw [h]

lemma main_ok_val (env : Env) (argv : List String) (rc : Nat)
    (h : (main env argv).2 = PyResult.ok rc) : rc = 0 := by
  simp only [main] at h
  rcases hd : (_git_diff env (!(argv.contains "--unstaged")) "ml").2 with rel | ⟨c, rc'⟩
  · rw [hd] at h
    by_cases he : rel.isEmpty
    · simp [he] at h
      exact h.symm
    · simp only [he] at h
      rcases hc : (_call_tool env rel (!(argv.contains "--unstaged"))
          ["ocamlformat", "--inplace"]).2 with rc2 | ⟨c2, rcf⟩
      · rw [hc] at h
        simp at h
        rw [← h, call_tool_ok_all env rel _ _ rc2 hc]
      · rw [hc] at h
        simp at h
  · rw [hd] at h
    simp at h

lemma main_fail_rc (env : Env) (argv c : List String) (rc : Nat)
    (h : (main env argv).2 = PyResult.procFailure c rc) : rc ≠ 0 := by
  simp only [main] at h
  rcases hd : (_git_diff env (!(argv.contains "--unstaged")) "ml").2 with rel | ⟨c', rc'⟩
  · rw [hd] at h
    by_cases he : rel.isEmpty
    · simp [he] at h
    · simp only [he] at h
      rcases hc : (_call_tool env rel (!(argv.contains "--unstaged"))
          ["ocamlformat", "--inplace"]).2 with rc2 | ⟨c2, rcf⟩
      · rw [hc] at h
        simp at h
      · rw [hc] at h
        simp only [Bool.false_eq_true, if_false] at h
        injection h with hc' hrc'
        rw [← hrc']
        exact call_tool_fail_rc env rel _ _ c2 rcf hc
  · rw [hd] at h
    by_cases hok : (env (gitDiffCmd (!(argv.contains "--unstaged")) "ml")).returncode = 0
    · rw [git_diff_ok_eq env _ "ml" hok] at hd
      simp at hd
    · rw [git_diff_fail_eq env _ "ml" hok] at hd
      simp only at hd
      injection hd with hc' hrc'
      injection h with hc'' hrc''
      rw [← hrc'', ← hrc']
      exact hok

lemma toolLoop_pairedEcho (env : Env) (staged : Bool) (cmd : List String) :
    ∀ fs, PairedEcho (toolLoop env staged cmd fs).1 := by
  intro fs
  induction fs with
  | nil => exact PairedEcho.nil
  | cons file rest ih =>
    by_cases h1 : (env (cmd ++ [file])).returncode = 0
    · by_cases hs : staged = true
      · subst hs
        by_cases h2 : (env ["git", "add", file]).returncode = 0
        · rw [toolLoop_cons_ok env true cmd file rest h1 (fun _ => h2)]
          simp only [fileBlock, toolBlock, addBlock, if_true, List.cons_append,
            List.nil_append, ite_true]
          exact PairedEcho.cons _ _ (PairedEcho.cons _ _ ih)
        · rw [toolLoop_add_fail env cmd file rest h1 h2]
          simp only [toolBlock, addBlock, List.cons_append, List.nil_append]
          exact PairedEcho.cons _ _ (PairedEcho.cons _ [] PairedEcho.nil)
      · have hs' : staged = false := Bool.eq_false_iff.mpr hs
        subst hs'
        rw [toolLoop_cons_ok env false cmd file rest h1
          (fun hc => absurd hc Bool.false_ne_true)]
        simp only [fileBlock, toolBlock, Bool.false_eq_true, if_false,
          List.append_nil, List.cons_append, List.nil_append, ite_false]
        exact PairedEcho.cons _ _ ih
    · rw [toolLoop_fail_head env staged cmd file rest h1]
      exact PairedEcho.cons _ [] PairedEcho.nil

lemma toolLoop_unstaged_events (env : Env) (cmd : List String) :
    ∀ fs e, e ∈ (toolLoop env false cmd fs).1 →
      (∃ s, e = Event.print s) ∨ ∃ f, f ∈ fs ∧ e = Event.exec (cmd ++ [f]) := by
  intro fs
  induction fs with
  | nil =>
    intro e he
    simp only [toolLoop] at he
    cases he
  | cons file rest ih =>
    intro e he
    by_cases h1 : (env (cmd ++ [file])).returncode = 0
    · rw [toolLoop_cons_ok env false cmd file rest h1
        (fun hc => absurd hc Bool.false_ne_true)] at he
      simp only [fileBlock, toolBlock, Bool.false_eq_true, if_false,
        List.append_nil, List.cons_append, List.nil_append, ite_false] at he
      rcases List.mem_cons.mp he with h' | h'
      · exact Or.inl ⟨_, h'⟩
      · rcases List.mem_cons.mp h' with h'' | h''
        · exact Or.inr ⟨file, List.mem_cons_self file rest, h''⟩
        · rcases ih e h'' with hl | ⟨f, hf, he'⟩
          · exact Or.inl hl
          · exact Or.inr ⟨f, List.mem_cons_of_mem _ hf, he'⟩
    · rw [toolLoop_fail_head env false cmd file rest h1] at he
      simp only [toolBlock] at he
      rcases List.mem_cons.mp he with h' | h'
      · exact Or.inl ⟨_, h'⟩
      · rcases List.mem_cons.mp h' with h'' | h''
        · exact Or.inr ⟨file, List.mem_cons_self file rest, h''⟩
        · cases h''

lemma call_tool_warn_mem (env : Env) (files cmd : List String) (g : String)
    (hok : (env gitDiffNameOnly).returncode = 0)
    (hg : g ∈ excludedFiles files
      (trimmedFiles files (splitLines (env gitDiffNameOnly).stdout))) :
    Event.print ("  " ++ g) ∈ (_call_tool env files true cmd).1 := by
  rw [call_tool_staged_eq env files cmd hok]
  have hne : ¬ (excludedFiles files
      (trimmedFiles files (splitLines (env gitDiffNameOnly).stdout))).isEmpty = true := by
    intro hempty
    rw [List.isEmpty_iff] at hempty
    rw [hempty] at hg
    cases hg
  simp only [hne, if_false, ite_false]
  apply List.mem_cons_of_mem
  apply List.mem_append_left
  apply List.mem_cons_of_mem
  exact List.mem_map_of_mem _ hg

lemma main_trace_head (env : Env) (argv : List String) :
    ∃ rest, (main env argv).1
      = Event.exec (gitDiffCmd (!(argv.contains "--unstaged")) "ml") :: rest := by
  simp only [main]
  by_cases hok : (env (gitDiffCmd (!(argv.contains "--unstaged")) "ml")).returncode = 0
  · rw [git_diff_ok_eq env _ "ml" hok]
    dsimp only
    split
    · exact ⟨_, rfl⟩
    · split <;> exact ⟨_, rfl⟩
  · rw [git_diff_fail_eq env _ "ml" hok]
    exact ⟨[], rfl⟩

lemma call_tool_staged_head (env : Env) (files cmd : List String) :
    ∃ rest, (_call_tool env files true cmd).1 = Event.exec gitDiffNameOnly :: rest := by
  by_cases hok : (env gitDiffNameOnly).returncode = 0
  · rw [call_tool_staged_eq env files cmd hok]
    exact ⟨_, rfl⟩
  · rw [call_tool_staged_fail_eq env files cmd hok]
    exact ⟨[], rfl⟩

lemma main_staged_two_execs (env : Env) (argv : List String)
    (hu : argv.contains "--unstaged" = false)
    (hok : (env (gitDiffCmd true "ml")).returncode = 0)
    (hne : ((splitLines (env (gitDiffCmd true "ml")).stdout).filter
      (fun x => decide (x ≠ ""))).isEmpty = false) :
    ∃ rest, (main env argv).1
      = Event.exec (gitDiffCmd true "ml") :: Event.exec gitDiffNameOnly :: rest := by
  simp only [main, hu, Bool.not_false]
  rw [git_diff_ok_eq env true "ml" hok]
  dsimp only
  simp only [hne, Bool.false_eq_true, if_false, ite_false]
  obtain ⟨r, hr⟩ := call_tool_staged_head env
    ((splitLines (env (gitDiffCmd true "ml")).stdout).filter (fun x => decide (x ≠ "")))
    ["ocamlformat", "--inplace"]
  rcases hc : (_call_tool env
      ((splitLines (env (gitDiffCmd true "ml")).stdout).filter (fun x => decide (x ≠ "")))
      true ["ocamlformat", "--inplace"]).2 with rc | ⟨c2, rc2⟩ <;>
    dsimp only <;> exact ⟨r, by rw [hr]; rfl⟩

lemma foldr_max_zero (l : List Nat) (h : ∀ x ∈ l, x = 0) :
    l.foldr Nat.max 0 = 0 := by
  induction l with
  | nil => rfl
  | cons a l ih =>
    simp only [List.foldr]
    rw [h a (List.mem_cons_self a l), ih (fun x hx => h x (List.mem_cons_of_mem a hx))]
    exact Nat.max_self 0

/-- Claim C1: in staged mode, every staged file that also appears in the
working-tree-vs-index diff (queried with no path filter) is removed from
the file list before the tool loop, its path is printed in the warning,
and the run continues with the loop on the trimmed list rather than
aborting. -/
theorem claim_C1 (env : Env) (files cmd : List String) (f : String)
    (hok : (env gitDiffNameOnly).returncode = 0)
    (hf : f ∈ files)
    (hmod : f ∈ splitLines (env gitDiffNameOnly).stdout) :
    f ∉ trimmedFiles files (splitLines (env gitDiffNameOnly).stdout)
    ∧ Event.print ("  " ++ f) ∈ (_call_tool env files true cmd).1
    ∧ (_call_tool env files true cmd).2
        = (toolLoop env true cmd
            (trimmedFiles files (splitLines (env gitDiffNameOnly).stdout))).2 := by
  have hnt : f ∉ trimmedFiles files (splitLines (env gitDiffNameOnly).stdout) := by
    intro hmem
    rcases List.mem_filter.mp hmem with ⟨_, hp⟩
    simp [hmod] at hp
  have hex : f ∈ excludedFiles files
      (trimmedFiles files (splitLines (env gitDiffNameOnly).stdout)) :=
    List.mem_filter.mpr ⟨hf, by simp [hnt]⟩
  refine ⟨hnt, call_tool_warn_mem env files cmd f hok hex, ?_⟩
  rw [call_tool_staged_eq env files cmd hok]

theorem claim_C1_witness :
    (envC1 gitDiffNameOnly).returncode = 0
    ∧ "b.ml" ∈ (["a.ml", "b.ml"] : List String)
    ∧ "b.ml" ∈ splitLines (envC1 gitDiffNameOnly).stdout
    ∧ ("b.ml" ∉ trimmedFiles ["a.ml", "b.ml"] (splitLines (envC1 gitDiffNameOnly).stdout)
       ∧ Event.print ("  " ++ "b.ml") ∈ (_call_tool envC1 ["a.ml", "b.ml"] true ["tool"]).1
       ∧ (_call_tool envC1 ["a.ml", "b.ml"] true ["tool"]).2
           = (toolLoop envC1 true ["tool"]
               (trimmedFiles ["a.ml", "b.ml"] (splitLines (envC1 gitDiffNameOnly).stdout))).2) :=
  ⟨by decide, by decide, by decide,
   claim_C1 envC1 ["a.ml", "b.ml"] ["tool"] "b.ml" (by decide) (by decide) (by decide)⟩

/-- Claim C2: in staged mode, for every file on which the tool invocation
succeeds, a re-add of exactly that file follows immediately after the tool
call, and the re-adds occur in the same order as the files were formatted:
with all calls succeeding, the trace is exactly the per-file blocks
(tool echo, tool call, re-add echo, re-add) in list order. -/
theorem claim_C2 (env : Env) (cmd fs : List String)
    (h : ∀ f ∈ fs, (env (cmd ++ [f])).returncode = 0
      ∧ (env ["git", "add", f]).returncode = 0) :
    toolLoop env true cmd fs
      = ((fs.map (fun f => toolBlock cmd f ++ addBlock f)).flatten, PyResult.ok 0) := by
  have hp := toolLoop_front env true cmd fs []
    (fun g hg => ⟨(h g hg).1, fun _ => (h g hg).2⟩)
  rw [List.append_nil] at hp
  rw [hp]
  have hfb : fileBlock true cmd = fun f => toolBlock cmd f ++ addBlock f :=
    funext fun f => by simp [fileBlock]
  rw [hfb]
  simp [toolLoop]

theorem claim_C2_witness :
    (∀ f ∈ (["a.ml", "b.ml"] : List String),
      (envOk (["tool"] ++ [f])).returncode = 0
      ∧ (envOk ["git", "add", f]).returncode = 0)
    ∧ toolLoop envOk true ["tool"] ["a.ml", "b.ml"]
        = (((["a.ml", "b.ml"] : List String).map
            (fun f => toolBlock ["tool"] f ++ addBlock f)).flatten, PyResult.ok 0) :=
  ⟨by decide, claim_C2 envOk ["tool"] ["a.ml", "b.ml"] (by decide)⟩

/-- Claim C3: if the tool invocation on a file exits non-zero, no
subsequent file is processed (the trace ends at the failing tool call, so
no further tool call and no further re-add occurs), and whenever the run
fails the process exit code is non-zero. -/
theorem claim_C3 (env : Env) (staged : Bool) (cmd pre post : List String)
    (f : String)
    (hpre : ∀ g ∈ pre, (env (cmd ++ [g])).returncode = 0
      ∧ (staged = true → (env ["git", "add", g]).returncode = 0))
    (hf : (env (cmd ++ [f])).returncode ≠ 0) :
    toolLoop env staged cmd (pre ++ f :: post)
      = ((pre.map (fileBlock staged cmd)).flatten ++ toolBlock cmd f,
         PyResult.procFailure (cmd ++ [f]) (env (cmd ++ [f])).returncode)
    ∧ ∀ (e : Env) (a c : List String) (rc : Nat),
        (main e a).2 = PyResult.procFailure c rc → processExitCode e a ≠ 0 := by
  constructor
  · rw [toolLoop_front env staged cmd pre (f :: post) hpre,
      toolLoop_fail_head env staged cmd f post hf]
  · intro e a c rc h
    rw [exit_of_failure e a c rc h]
    exact one_ne_zero

theorem claim_C3_witness :
    (∀ g ∈ ([] : List String), (envFailTool (["tool"] ++ [g])).returncode = 0
      ∧ (true = true → (envFailTool ["git", "add", g]).returncode = 0))
    ∧ (envFailTool (["tool"] ++ ["a.ml"])).returncode ≠ 0
    ∧ (toolLoop envFailTool true ["tool"] ([] ++ "a.ml" :: ["b.ml"])
        = ((([] : List String).map (fileBlock true ["tool"])).flatten
            ++ toolBlock ["tool"] "a.ml",
           PyResult.procFailure (["tool"] ++ ["a.ml"])
             (envFailTool (["tool"] ++ ["a.ml"])).returncode)
       ∧ ∀ (e : Env) (a c : List String) (rc : Nat),
           (main e a).2 = PyResult.procFailure c rc → processExitCode e a ≠ 0) :=
  ⟨by decide, by decide,
   claim_C3 envFailTool true ["tool"] [] ["b.ml"] "a.ml" (by decide) (by decide)⟩

/-- Claim C10: in staged mode, the list the loop actually formats is a
sublist (ordered, duplicate-free selection) of the input staged file list:
the safety filter never reorders, duplicates, or introduces files. -/
theorem claim_C10 (env : Env) (files cmd : List String)
    (hok : (env gitDiffNameOnly).returncode = 0) :
    List.Sublist (trimmedFiles files (splitLines (env gitDiffNameOnly).stdout)) files
    ∧ (_call_tool env files true cmd).2
        = (toolLoop env true cmd
            (trimmedFiles files (splitLines (env gitDiffNameOnly).stdout))).2 := by
  constructor
  · simp only [trimmedFiles]
    exact List.filter_sublist files
  · rw [call_tool_staged_eq env files cmd hok]

theorem claim_C10_witness :
    (envC1 gitDiffNameOnly).returncode = 0
    ∧ (List.Sublist
        (trimmedFiles ["a.ml", "b.ml"] (splitLines (envC1 gitDiffNameOnly).stdout))
        ["a.ml", "b.ml"]
       ∧ (_call_tool envC1 ["a.ml", "b.ml"] true ["fmt"]).2
           = (toolLoop envC1 true ["fmt"]
               (trimmedFiles ["a.ml", "b.ml"] (splitLines (envC1 gitDiffNameOnly).stdout))).2) :=
  ⟨by decide, claim_C10 envC1 ["a.ml", "b.ml"] ["fmt"] (by decide)⟩

/-- Claim C4: when the diff query succeeds and yields no file of the
target extension, the program prints the informational message
"No (staged or modified) *.ml relevant file found: nothing to format",
invokes no tool at all (the trace holds only the diff query and the
message), and exits 0. -/
theorem claim_C4 (env : Env) (argv : List String)
    (hok : (env (gitDiffCmd (!(argv.contains "--unstaged")) "ml")).returncode = 0)
    (hempty : (splitLines
        (env (gitDiffCmd (!(argv.contains "--unstaged")) "ml")).stdout).filter
        (fun x => decide (x ≠ "")) = []) :
    main env argv
      = ([Event.exec (gitDiffCmd (!(argv.contains "--unstaged")) "ml"),
          Event.print (noFileMessage
            (if (!(argv.contains "--unstaged")) = true then "staged" else "modified"))],
         PyResult.ok 0)
    ∧ processExitCode env argv = 0 := by
  have hm : main env argv
      = ([Event.exec (gitDiffCmd (!(argv.contains "--unstaged")) "ml"),
          Event.print (noFileMessage
            (if (!(argv.contains "--unstaged")) = true then "staged" else "modified"))],
         PyResult.ok 0) := by
    simp only [main]
    rw [git_diff_ok_eq env _ "ml" hok]
    dsimp only
    rw [hempty]
    rfl
  refine ⟨hm, ?_⟩
  have h2 : (main env argv).2 = PyResult.ok 0 := by rw [hm]
  exact exit_of_ok env argv 0 h2

theorem claim_C4_witness :
    (envOk (gitDiffCmd (!(List.contains [] "--unstaged")) "ml")).returncode = 0
    ∧ (splitLines
        (envOk (gitDiffCmd (!(List.contains [] "--unstaged")) "ml")).stdout).filter
        (fun x => decide (x ≠ "")) = []
    ∧ (main envOk []
        = ([Event.exec (gitDiffCmd (!(List.contains [] "--unstaged")) "ml"),
            Event.print (noFileMessage
              (if (!(List.contains [] "--unstaged")) = true then "staged" else "modified"))],
           PyResult.ok 0)
       ∧ processExitCode envOk [] = 0) :=
  ⟨by decide, by decide, claim_C4 envOk [] (by decide) (by decide)⟩

/-- Claim C5: in unstaged mode (`--unstaged` present in argv), no re-add
`git add <file>` is ever executed, for any environment, hence for any file
list and regardless of whether each tool invocation succeeds or fails. -/
theorem claim_C5 (env : Env) (argv : List String) (hu : "--unstaged" ∈ argv) :
    ∀ f : String, Event.exec ["git", "add", f] ∉ (main env argv).1 := by
  intro f hmem
  have hc : argv.contains "--unstaged" = true := by
    simpa using hu
  simp only [main, hc, Bool.not_true] at hmem
  by_cases hok : (env (gitDiffCmd false "ml")).returncode = 0
  · rw [git_diff_ok_eq env false "ml" hok] at hmem
    dsimp only at hmem
    rcases hsplit : (splitLines (env (gitDiffCmd false "ml")).stdout).filter
        (fun x => decide (x ≠ "")) with _ | _
    all_goals rw [hsplit] at hmem
    · simp [gitDiffCmd] at hmem
    · rcases hc2 : (_call_tool env _ false ["ocamlformat", "--inplace"]).2
          with rc2 | ⟨c2, rcf⟩
      · rw [hc2] at hmem
        simp only [List.isEmpty_cons, Bool.false_eq_true, if_false, ite_false] at hmem
        rcases List.mem_append.mp hmem with he | he
        · simp [gitDiffCmd] at he
        · rw [call_tool_unstaged_eq] at he
          rcases toolLoop_unstaged_events env ["ocamlformat", "--inplace"] _ _ he
            with ⟨s, hs⟩ | ⟨g, hg, hgeq⟩
          · exact Event.noConfusion hs
          · simp at hgeq
      · rw [hc2] at hmem
        simp only [List.isEmpty_cons, Bool.false_eq_true, if_false, ite_false] at hmem
        rcases List.mem_append.mp hmem with he | he
        · simp [gitDiffCmd] at he
        · rw [call_tool_unstaged_eq] at he
          rcases toolLoop_unstaged_events env ["ocamlformat", "--inplace"] _ _ he
            with ⟨s, hs⟩ | ⟨g, hg, hgeq⟩
          · exact Event.noConfusion hs
          · simp at hgeq
  · rw [git_diff_fail_eq env false "ml" hok] at hmem
    dsimp only at hmem
    rcases List.mem_cons.mp hmem with he | he
    · simp [gitDiffCmd] at he
    · cases he

theorem claim_C5_witness :
    "--unstaged" ∈ (["--unstaged"] : List String)
    ∧ ∀ f : String,
        Event.exec ["git", "add", f] ∉ (main envFailTool ["--unstaged"]).1 :=
  ⟨by decide, claim_C5 envFailTool ["--unstaged"] (by decide)⟩

/-- Claim C7: `_git_diff` returns an empty list, not an error, when the
diff output contains no file of the requested extension (no non-empty
line), and its result is a `procFailure` exactly when the underlying
version-control invocation exits non-zero. -/
theorem claim_C7 (env : Env) (s : Bool) (ext : String) :
    ((env (gitDiffCmd s ext)).returncode = 0 →
      (splitLines (env (gitDiffCmd s ext)).stdout).filter (fun x => decide (x ≠ "")) = [] →
      (_git_diff env s ext).2 = PyResult.ok [])
    ∧ ((∃ c rc, (_git_diff env s ext).2 = PyResult.procFailure c rc)
        ↔ (env (gitDiffCmd s ext)).returncode ≠ 0) := by
  constructor
  · intro hok he
    rw [git_diff_ok_eq env s ext hok]
    dsimp only
    rw [he]
  · constructor
    · rintro ⟨c, rc, h⟩ h0
      rw [git_diff_ok_eq env s ext h0] at h
      simp at h
    · intro hne
      exact ⟨gitDiffCmd s ext, (env (gitDiffCmd s ext)).returncode,
        by rw [git_diff_fail_eq env s ext hne]⟩

theorem claim_C7_witness :
    (envOk (gitDiffCmd true "ml")).returncode = 0
    ∧ (splitLines (envOk (gitDiffCmd true "ml")).stdout).filter
        (fun x => decide (x ≠ "")) = []
    ∧ (_git_diff envOk true "ml").2 = PyResult.ok []
    ∧ ((∃ c rc, (_git_diff envFail2 false "py").2 = PyResult.procFailure c rc)
        ↔ (envFail2 (gitDiffCmd false "py")).returncode ≠ 0) :=
  ⟨by decide, by decide,
   (claim_C7 envOk true "ml").1 (by decide) (by decide),
   (claim_C7 envFail2 false "py").2⟩

/-- Claim C8: whenever `_call_tool` returns normally its value is 0, and
whenever the loop returns normally its value equals the maximum of the
per-file tool return codes it observed (all of which are 0 under the
fail-fast `check=True` strategy). -/
theorem claim_C8 (env : Env) (files : List String) (staged : Bool)
    (cmd : List String) (rc : Nat)
    (h : (_call_tool env files staged cmd).2 = PyResult.ok rc) :
    rc = 0
    ∧ ∀ fs rc2, (toolLoop env staged cmd fs).2 = PyResult.ok rc2 →
        rc2 = (fs.map (fun f => (env (cmd ++ [f])).returncode)).foldr Nat.max 0 := by
  refine ⟨call_tool_ok_all env files staged cmd rc h, ?_⟩
  intro fs rc2 h2
  rcases toolLoop_ok_all env staged cmd fs rc2 h2 with ⟨hrc, hall⟩
  have hz : (fs.map (fun f => (env (cmd ++ [f])).returncode)).foldr Nat.max 0 = 0 := by
    apply foldr_max_zero
    intro x hx
    rcases List.mem_map.mp hx with ⟨f, hf, hfe⟩
    rw [← hfe]
    exact hall f hf
  rw [hrc, hz]

theorem claim_C8_witness :
    (_call_tool envOk ["a.ml"] false ["tool"]).2 = PyResult.ok 0
    ∧ ((0 : Nat) = 0
       ∧ ∀ fs rc2, (toolLoop envOk false ["tool"] fs).2 = PyResult.ok rc2 →
           rc2 = (fs.map (fun f => (envOk (["tool"] ++ [f])).returncode)).foldr Nat.max 0) :=
  ⟨by decide, claim_C8 envOk ["a.ml"] false ["tool"] 0 (by decide)⟩

/-- Claim C6, counterexample: with every subprocess exiting 2, the first
failing subprocess is the staged diff query with exit code 2, yet the
process exit code is 1 (the interpreter's uncaught-exception status), not
2 — so the exit code is not "propagated from the first failing
subprocess" as the claim states. -/
theorem claim_C6_counterexample :
    (main envFail2 []).2 = PyResult.procFailure (gitDiffCmd true "ml") 2
    ∧ processExitCode envFail2 [] = 1
    ∧ processExitCode envFail2 [] ≠ 2 := by decide

/-- Claim C6, amended: on any version-control or tool subprocess failure
the run aborts with process exit code 1 — non-zero, but the interpreter's
uncaught-exception status rather than the failing subprocess's own exit
code, which is carried in the error (and is itself non-zero); on success
(including the nothing-to-do case) the exit code is 0. -/
theorem claim_C6_amended :
    (∀ (env : Env) (argv c : List String) (rc : Nat),
        (main env argv).2 = PyResult.procFailure c rc →
          processExitCode env argv = 1 ∧ rc ≠ 0)
    ∧ (∀ (env : Env) (argv : List String) (rc : Nat),
        (main env argv).2 = PyResult.ok rc → processExitCode env argv = 0) := by
  constructor
  · intro env argv c rc h
    exact ⟨exit_of_failure env argv c rc h, main_fail_rc env argv c rc h⟩
  · intro env argv rc h
    rw [exit_of_ok env argv rc h]
    exact main_ok_val env argv rc h

theorem claim_C6_amended_witness :
    (main envFail2 []).2 = PyResult.procFailure (gitDiffCmd true "ml") 2
    ∧ (processExitCode envFail2 [] = 1 ∧ (2 : Nat) ≠ 0)
    ∧ (main envOk []).2 = PyResult.ok 0
    ∧ processExitCode envOk [] = 0 :=
  ⟨by decide,
   claim_C6_amended.1 envFail2 [] (gitDiffCmd true "ml") 2 (by decide),
   by decide,
   claim_C6_amended.2 envOk [] 0 (by decide)⟩

/-- Claim C9, counterexample: the staged diff query is executed but its
command line is never printed, so not every executed external command is
echoed to standard output before it is run. -/
theorem claim_C9_counterexample :
    Event.exec (gitDiffCmd true "ml") ∈ (main envOk []).1
    ∧ Event.print (joinSpace (gitDiffCmd true "ml")) ∉ (main envOk []).1 := by
  decide

/-- Claim C9, amended: the tool invocations and re-adds of the per-file
loop are each echoed (printed as their full command line) immediately
before being executed, but neither version-control diff query is echoed:
the run's trace starts directly with the executed `_git_diff` query with
no print before it; the trace of staged `_call_tool` starts directly with
the executed `git diff --name-only` query with no print before it; and in
a staged run that reaches the filter, the first two events of the whole
run are the two executed diff queries back to back, unechoed. -/
theorem claim_C9_amended :
    (∀ (env : Env) (staged : Bool) (cmd fs : List String),
        PairedEcho (toolLoop env staged cmd fs).1)
    ∧ (∀ (env : Env) (argv : List String),
        ∃ rest, (main env argv).1
          = Event.exec (gitDiffCmd (!(argv.contains "--unstaged")) "ml") :: rest)
    ∧ (∀ (env : Env) (files cmd : List String),
        ∃ rest, (_call_tool env files true cmd).1
          = Event.exec gitDiffNameOnly :: rest)
    ∧ (∀ (env : Env) (argv : List String),
        argv.contains "--unstaged" = false →
        (env (gitDiffCmd true "ml")).returncode = 0 →
        ((splitLines (env (gitDiffCmd true "ml")).stdout).filter
          (fun x => decide (x ≠ ""))).isEmpty = false →
        ∃ rest, (main env argv).1
          = Event.exec (gitDiffCmd true "ml") :: Event.exec gitDiffNameOnly :: rest) :=
  ⟨fun env staged cmd fs => toolLoop_pairedEcho env staged cmd fs,
   fun env argv => main_trace_head env argv,
   fun env files cmd => call_tool_staged_head env files cmd,
   fun env argv hu hok hne => main_staged_two_execs env argv hu hok hne⟩

theorem claim_C9_amended_witness :
    (List.contains [] "--unstaged") = false
    ∧ (envC9 (gitDiffCmd true "ml")).returncode = 0
    ∧ ((splitLines (envC9 (gitDiffCmd true "ml")).stdout).filter
        (fun x => decide (x ≠ ""))).isEmpty = false
    ∧ (∃ rest, (_call_tool envC9 ["a.ml"] true ["tool"]).1
        = Event.exec gitDiffNameOnly :: rest)
    ∧ (∃ rest, (main envC9 []).1
        = Event.exec (gitDiffCmd true "ml") :: Event.exec gitDiffNameOnly :: rest) :=
  ⟨by decide, by decide, by decide,
   claim_C9_amended.2.2.1 envC9 ["a.ml"] ["tool"],
   claim_C9_amended.2.2.2 envC9 [] (by decide) (by decide) (by decide)⟩

end PreCommit
